import Mathlib

/-!
Verification model of the live-campaigns-changelog repository.

The frontend definitions are translated from the TypeScript sources under
frontend/src (pages/changelog.tsx, pages/banners.tsx, the calendar page,
components/data-table.tsx, types/api.ts).  JavaScript runtime values are
embedded as follows: strings are `String` with `""` as the falsy case,
nullable numbers are `Option Int`, the nullable end timestamp is an
`Option String` on the wire, a JS `Set` is a list of distinct elements in
insertion order, and `localeCompare` is modelled as code-point
lexicographic comparison.

The backend engine (backend/app.py and backend/services: normalizer,
identity hasher, snapshot differ, banner action resolver, calendar
classifier) is not part of the source tree; those definitions are
modelled from the specification and are marked as such individually.
Timestamps are embedded as integers (UTC-normalized instants compare by
integer order).
-/

namespace CampaignChangelog

/-- One changelog/calendar entry as the frontend receives it
(`CampaignEntry` in frontend/src/types/api.ts).  Nullable numeric fields
and the nullable end timestamp are `Option`s; string fields use `""` for
the absent (falsy) case, exactly as the TypeScript code tests them.  The
presentation-only fields (`changed_fields`, `previous_values`, `status`,
`raw_bonus_percentage`, `raw_bonus_max_value`) are not read by any
function embedded here and are omitted. -/
structure CampaignEntry where
  provider_id : String
  provider_name : String
  account_manager : String
  city : String
  campaign_id : String
  spend_objective : String
  bonus_type : String
  bonus_percentage : Option Int
  bonus_max_value : Option Int
  min_basket_size : Option Int
  campaign_start : String
  campaign_end : Option String
  campaign_hash : String
  event_type : String
  banner_action : String
  date : String
deriving DecidableEq

/-- A JavaScript `Set` of strings modelled as a list of distinct elements
in insertion order; `add` is a no-op on an element already present. -/
def jsSetInsert (s : List String) (x : String) : List String :=
  if x ∈ s then s else s ++ [x]

/-- Provider identity used for distinct-provider counts:
`e.provider_id || e.provider_name` (changelog.tsx line 129, banners.tsx
line 107, calendar page line 118). -/
def providerKey (e : CampaignEntry) : String :=
  if e.provider_id ≠ "" then e.provider_id else e.provider_name

/-- The metric toggle of the stat cards. -/
inductive Metric where
  | providers
  | campaigns
deriving DecidableEq

/-- `getStats` of the three pages (changelog.tsx lines 126-132,
banners.tsx lines 105-110, calendar page lines 116-121): in `providers`
mode the size of the JS set of provider keys, in `campaigns` mode the
number of entries. -/
def getStats (m : Metric) (entries : List CampaignEntry) : Nat :=
  match m with
  | .providers => ((entries.map providerKey).foldl jsSetInsert []).length
  | .campaigns => entries.length

/-- Code points of a string, used to model `localeCompare` as code-point
lexicographic comparison. -/
def strKey (s : String) : List Nat :=
  s.data.map Char.toNat

/-- Code-point order on strings (the model of `a < b` under
`localeCompare`). -/
def strLt (a b : String) : Prop :=
  strKey a < strKey b

instance : DecidableRel strLt := fun a b => by
  unfold strLt; infer_instance

/-- `a.localeCompare(b)` modelled with the `-1 / 0 / 1` result shape. -/
def jsLocaleCompare (a b : String) : Int :=
  if strLt a b then -1 else if strLt b a then 1 else 0

/-- The comparator of `DataTable.sortedData` (data-table.tsx lines
141-157): provider name ascending, then bonus percentage descending,
then campaign end ascending as strings, with `|| ""` and `|| 0` defaults
on the possibly-missing values. -/
def entryCompare (a b : CampaignEntry) : Int :=
  if jsLocaleCompare a.provider_name b.provider_name ≠ 0 then
    jsLocaleCompare a.provider_name b.provider_name
  else if b.bonus_percentage.getD 0 ≠ a.bonus_percentage.getD 0 then
    b.bonus_percentage.getD 0 - a.bonus_percentage.getD 0
  else
    jsLocaleCompare (a.campaign_end.getD "") (b.campaign_end.getD "")

/-- The row order induced by the comparator: `entryCompare a b <= 0`. -/
def entryLE (a b : CampaignEntry) : Prop :=
  entryCompare a b ≤ 0

instance : DecidableRel entryLE := fun a b => by
  unfold entryLE; infer_instance

/-- The displayed row list of `DataTable` (data-table.tsx line 141:
`[...data].sort(...)`), modelled as a sort of the input by the
comparator's order; the input list itself is untouched. -/
def sortedData (data : List CampaignEntry) : List CampaignEntry :=
  data.insertionSort entryLE

/-- The three-level lexicographic order stated by the sort contract:
provider name ascending, bonus percentage descending (missing as 0),
campaign end ascending as strings (missing as `""`). -/
def sortSpecLE (a b : CampaignEntry) : Prop :=
  strLt a.provider_name b.provider_name ∨
    (a.provider_name = b.provider_name ∧
      (b.bonus_percentage.getD 0 < a.bonus_percentage.getD 0 ∨
        (a.bonus_percentage.getD 0 = b.bonus_percentage.getD 0 ∧
          (strLt (a.campaign_end.getD "") (b.campaign_end.getD "") ∨
            a.campaign_end.getD "" = b.campaign_end.getD ""))))

/-- Filter state of the filter bar (types/api.ts `FilterState`; the
optional date field only selects which dataset is fetched and is not part
of the client-side predicate). -/
structure FilterState where
  accountManager : String
  spendObjective : String
  bonusType : String
  providers : List String
  city : String
deriving DecidableEq

/-- The client-side `filterFn` of the changelog and banners pages
(changelog.tsx lines 155-162, banners.tsx lines 87-94): five guarded
mismatch checks, a filter being active when its string is nonempty
(respectively the provider list nonempty). -/
def pageFilterFn (f : FilterState) (e : CampaignEntry) : Bool :=
  if f.accountManager ≠ "" ∧ e.account_manager ≠ f.accountManager then false
  else if f.spendObjective ≠ "" ∧ e.spend_objective ≠ f.spendObjective then false
  else if f.bonusType ≠ "" ∧ e.bonus_type ≠ f.bonusType then false
  else if f.city ≠ "" ∧ e.city ≠ f.city then false
  else if f.providers.length > 0 ∧ e.provider_name ∉ f.providers then false
  else true

/-- The client-side `filterFn` of the calendar page (calendar page lines
98-105): identical to `pageFilterFn` except that it performs no city
check (the city filter is forwarded to the API in the request URL
instead). -/
def calendarFilterFn (f : FilterState) (e : CampaignEntry) : Bool :=
  if f.accountManager ≠ "" ∧ e.account_manager ≠ f.accountManager then false
  else if f.spendObjective ≠ "" ∧ e.spend_objective ≠ f.spendObjective then false
  else if f.bonusType ≠ "" ∧ e.bonus_type ≠ f.bonusType then false
  else if f.providers.length > 0 ∧ e.provider_name ∉ f.providers then false
  else true

/-- An entry satisfies every active filter (the conjunction over account
manager, spend objective, bonus type, city and provider list). -/
def matchesAllFilters (f : FilterState) (e : CampaignEntry) : Prop :=
  (f.accountManager ≠ "" → e.account_manager = f.accountManager) ∧
  (f.spendObjective ≠ "" → e.spend_objective = f.spendObjective) ∧
  (f.bonusType ≠ "" → e.bonus_type = f.bonusType) ∧
  (f.city ≠ "" → e.city = f.city) ∧
  (f.providers ≠ [] → e.provider_name ∈ f.providers)

instance instDecidableMatchesAllFilters (f : FilterState) (e : CampaignEntry) :
    Decidable (matchesAllFilters f e) := by
  unfold matchesAllFilters; infer_instance

/-- An entry satisfies every active filter except the city filter. -/
def matchesFiltersExceptCity (f : FilterState) (e : CampaignEntry) : Prop :=
  (f.accountManager ≠ "" → e.account_manager = f.accountManager) ∧
  (f.spendObjective ≠ "" → e.spend_objective = f.spendObjective) ∧
  (f.bonusType ≠ "" → e.bonus_type = f.bonusType) ∧
  (f.providers ≠ [] → e.provider_name ∈ f.providers)

instance instDecidableMatchesExceptCity (f : FilterState) (e : CampaignEntry) :
    Decidable (matchesFiltersExceptCity f e) := by
  unfold matchesFiltersExceptCity; infer_instance

/-- No filter is active: every string filter empty, the provider list
empty. -/
def inactiveFilters (f : FilterState) : Prop :=
  f.accountManager = "" ∧ f.spendObjective = "" ∧ f.bonusType = "" ∧
    f.providers = [] ∧ f.city = ""

instance instDecidableInactiveFilters (f : FilterState) :
    Decidable (inactiveFilters f) := by
  unfold inactiveFilters; infer_instance

/-- Modelled from the spec: the enrollment state enumeration of a
campaign record (spec section 3); the backend that carries it is not in
the source tree. -/
inductive EnrollmentState where
  | active
  | finished
  | disabled
deriving DecidableEq

/-- Modelled from the spec: one row of a normalized snapshot
(`CampaignRecord`, spec section 3); the backend record type is not in the
source tree.  Timestamps are UTC instants embedded as integers; a missing
`campaign_end` means open-ended. -/
structure CampaignRecord where
  provider_id : String
  provider_name : String
  account_manager : String
  city : String
  campaign_id : String
  spend_objective : String
  discount_type : String
  bonus_percentage : Option Int
  bonus_max_value : Option Int
  min_basket_size : Option Int
  cost_share_percentage : Option Int
  campaign_start : Int
  campaign_end : Option Int
  offer_mode : Option String
  enrollment_state : EnrollmentState
deriving DecidableEq

/-- Modelled from the spec: the live/scheduled/finished classification
(`CalendarStatus`, spec section 3). -/
inductive CalendarStatus where
  | live
  | scheduled
  | finished
deriving DecidableEq

/-- Whether an optional end instant is strictly before a reference
instant; an absent end is open-ended, never already ended. -/
def endBefore : Option Int → Int → Bool
  | some e, d => decide (e < d)
  | none, _ => false

/-- Modelled from the spec: the Calendar Classifier (spec section 4.5,
not in the source tree): `finished` if `campaign_end` is present and
strictly before the reference date; else `scheduled` if `campaign_start`
is strictly after the reference date; else `live`.  It reads nothing but
the two date fields. -/
def classify (r : CampaignRecord) (d : Int) : CalendarStatus :=
  if endBefore r.campaign_end d then .finished
  else if d < r.campaign_start then .scheduled
  else .live

/-- Progression rank of a status: scheduled, then live, then finished. -/
def statusRank : CalendarStatus → Nat
  | .scheduled => 0
  | .live => 1
  | .finished => 2

/-- Modelled from the spec: an old value carried in an update event
(spec section 9 asks for `(fieldName, oldValue)` pairs); one constructor
per semantic field type. -/
inductive FieldVal where
  | num (v : Option Int)
  | str (s : String)
  | instant (t : Int)
  | optInstant (t : Option Int)
deriving DecidableEq

/-- Modelled from the spec: a change event (spec section 3): start and
end carry one record, update carries both records plus the ordered
changed-field list with the previous value of each changed field. -/
inductive ChangeEvent where
  | campaignStart (identity : String) (current : CampaignRecord)
  | campaignEnd (identity : String) (previous : CampaignRecord)
  | campaignUpdate (identity : String) (previous current : CampaignRecord)
      (changes : List (String × FieldVal))
deriving DecidableEq

/-- The kind of a change event. -/
inductive EventKind where
  | started
  | updated
  | ended
deriving DecidableEq

/-- Kind of a change event. -/
def eventKind : ChangeEvent → EventKind
  | .campaignStart _ _ => .started
  | .campaignEnd _ _ => .ended
  | .campaignUpdate _ _ _ _ => .updated

/-- Identity carried by a change event. -/
def eventIdentity : ChangeEvent → String
  | .campaignStart i _ => i
  | .campaignEnd i _ => i
  | .campaignUpdate i _ _ _ => i

/-- Modelled from the spec: the Banner Action label (spec section 3). -/
inductive BannerAction where
  | bannerStart
  | bannerUpdate
  | bannerEnd
deriving DecidableEq

/-- Modelled from the spec: the Banner Action Resolver (spec section 4.4,
not in the source tree).  Start and end events always map to the matching
banner action; an update maps to `bannerUpdate` when the changed-field
list meets {min_basket_size, campaign_id, campaign_end}, or when
`campaign_start` changed and the new start is strictly after the
reference date; otherwise no action. -/
def resolve (ev : ChangeEvent) (d : Int) : Option BannerAction :=
  match ev with
  | .campaignStart _ _ => some .bannerStart
  | .campaignEnd _ _ => some .bannerEnd
  | .campaignUpdate _ _ cur changes =>
    if "min_basket_size" ∈ changes.map Prod.fst ∨
        "campaign_id" ∈ changes.map Prod.fst ∨
        "campaign_end" ∈ changes.map Prod.fst then
      some .bannerUpdate
    else if "campaign_start" ∈ changes.map Prod.fst ∧ d < cur.campaign_start then
      some .bannerUpdate
    else
      none

/-- Modelled from the spec: semantic equality of the six monitored fields
(spec section 4.3): exact numeric equality on the numeric fields, instant
equality on the timestamps, string equality on the campaign id. -/
def monitoredEq (p c : CampaignRecord) : Prop :=
  p.min_basket_size = c.min_basket_size ∧
  p.campaign_id = c.campaign_id ∧
  p.cost_share_percentage = c.cost_share_percentage ∧
  p.bonus_max_value = c.bonus_max_value ∧
  p.campaign_start = c.campaign_start ∧
  p.campaign_end = c.campaign_end

instance instDecidableMonitoredEq (p c : CampaignRecord) :
    Decidable (monitoredEq p c) := by
  unfold monitoredEq; infer_instance

/-- Modelled from the spec: the ordered changed-field list of an update,
each changed monitored field paired with its previous value, in the
spec's monitored-field order. -/
def changedFieldsOf (p c : CampaignRecord) : List (String × FieldVal) :=
  (if p.min_basket_size ≠ c.min_basket_size then
    [("min_basket_size", FieldVal.num p.min_basket_size)] else []) ++
  (if p.campaign_id ≠ c.campaign_id then
    [("campaign_id", FieldVal.str p.campaign_id)] else []) ++
  (if p.cost_share_percentage ≠ c.cost_share_percentage then
    [("cost_share_percentage", FieldVal.num p.cost_share_percentage)] else []) ++
  (if p.bonus_max_value ≠ c.bonus_max_value then
    [("bonus_max_value", FieldVal.num p.bonus_max_value)] else []) ++
  (if p.campaign_start ≠ c.campaign_start then
    [("campaign_start", FieldVal.instant p.campaign_start)] else []) ++
  (if p.campaign_end ≠ c.campaign_end then
    [("campaign_end", FieldVal.optInstant p.campaign_end)] else [])

/-- Modelled from the spec: a snapshot is a mapping from identity hash to
record (spec section 3), embedded as an association list (the hash-indexed
dictionary of the missing backend). -/
abbrev Snapshot := List (String × CampaignRecord)

/-- The identity hashes of a snapshot, in snapshot order. -/
def snapKeys (s : Snapshot) : List String :=
  s.map Prod.fst

/-- Modelled from the spec: the Snapshot Differ (spec section 4.3, not in
the source tree).  Identities only in `cur` give one start event each;
identities only in `prev` give one end event each; identities in both
give one update event exactly when a monitored field differs. -/
def diff (prev cur : Snapshot) : List ChangeEvent :=
  (cur.filter (fun pc => decide (pc.1 ∉ snapKeys prev))).map
    (fun pc => ChangeEvent.campaignStart pc.1 pc.2) ++
  (prev.filter (fun pc => decide (pc.1 ∉ snapKeys cur))).map
    (fun pc => ChangeEvent.campaignEnd pc.1 pc.2) ++
  cur.filterMap (fun pc =>
    match List.lookup pc.1 prev with
    | some p =>
      if monitoredEq p pc.2 then none
      else some (ChangeEvent.campaignUpdate pc.1 p pc.2 (changedFieldsOf p pc.2))
    | none => none)

/-- Identities receiving a start event: present in `cur`, absent from
`prev`. -/
def startIds (prev cur : Snapshot) : Finset String :=
  (snapKeys cur).toFinset \ (snapKeys prev).toFinset

/-- Identities receiving an end event: present in `prev`, absent from
`cur`. -/
def endIds (prev cur : Snapshot) : Finset String :=
  (snapKeys prev).toFinset \ (snapKeys cur).toFinset

/-- Identities present in both snapshots. -/
def sharedIds (prev cur : Snapshot) : Finset String :=
  (snapKeys prev).toFinset ∩ (snapKeys cur).toFinset

/-- A shared identity whose looked-up records differ on a monitored
field. -/
def changedAt (prev cur : Snapshot) (h : String) : Prop :=
  match List.lookup h prev, List.lookup h cur with
  | some p, some c => ¬ monitoredEq p c
  | _, _ => False

instance instDecidableChangedAt (prev cur : Snapshot) (h : String) :
    Decidable (changedAt prev cur h) := by
  unfold changedAt
  rcases List.lookup h prev with _ | p <;>
    rcases List.lookup h cur with _ | c <;>
    exact inferInstance

/-- Identities receiving an update event. -/
def updatedIds (prev cur : Snapshot) : Finset String :=
  (sharedIds prev cur).filter (fun h => changedAt prev cur h)

/-- Shared identities with all monitored fields equal: no event. -/
def unchangedIds (prev cur : Snapshot) : Finset String :=
  (sharedIds prev cur).filter (fun h => ¬ changedAt prev cur h)

/-- Rendering of the nullable numeric identity field for the digest
input. -/
def numStr : Option Int → String
  | none => "None"
  | some n => toString n

/-- Modelled from the spec: the ordered identity tuple of a record (spec
section 3): provider id, discount type, bonus percentage, spend
objective. -/
def identityTuple (r : CampaignRecord) : String × String × String × String :=
  (r.provider_id, r.discount_type, numStr r.bonus_percentage, r.spend_objective)

/-- Modelled from the spec: the digest input of the Identity Hasher (spec
section 4.2, not in the source tree): the four identity fields joined
with the separator `|`, which is assumed absent from every field. -/
def hashInput (a b c d : String) : String :=
  a ++ "|" ++ b ++ "|" ++ c ++ "|" ++ d

/-- A string free of the hash separator. -/
def sepFree (s : String) : Prop :=
  '|' ∉ s.data

instance instDecidableSepFree (s : String) : Decidable (sepFree s) := by
  unfold sepFree; infer_instance

/-- Modelled from the spec: a fixed, seed-free 64-bit digest of the hash
input (stand-in for the strong digest of spec section 4.2; the Lean
development only relies on it being a pure function). -/
def digest64 (s : String) : Nat :=
  s.data.foldl (fun a c => (a * 131 + c.toNat) % 2 ^ 64) 7

/-- The base-36 digit alphabet. -/
def base36Digits : List Char :=
  "0123456789abcdefghijklmnopqrstuvwxyz".data

/-- Fixed-length (13 digit) base-36 rendering of a 64-bit digest. -/
def encode36 (n : Nat) : String :=
  ⟨((List.range 13).reverse).map (fun i => base36Digits.getD (n / 36 ^ i % 36) '0')⟩

/-- Modelled from the spec: the Identity Hasher (spec section 4.2, not in
the source tree): digest of the separator-joined identity tuple, encoded
in a fixed-length alphanumeric alphabet.  Pure and seed-free by
construction. -/
def campaignHash (r : CampaignRecord) : String :=
  encode36 (digest64 (hashInput (identityTuple r).1 (identityTuple r).2.1
    (identityTuple r).2.2.1 (identityTuple r).2.2.2))

/-- Modelled from the spec: one raw tabular row (spec section 4.1): a
mapping from column name to raw cell value. -/
abbrev RawRow := List (String × String)

/-- First hit of a column across its fixed alias list. -/
def getCol (row : RawRow) (aliases : List String) : Option String :=
  match aliases with
  | [] => none
  | n :: rest =>
    match List.lookup n row with
    | some v => some v
    | none => getCol row rest

/-- Digit value of a character, if it is a decimal digit. -/
def digitVal (c : Char) : Option Nat :=
  if 48 ≤ c.toNat ∧ c.toNat ≤ 57 then some (c.toNat - 48) else none

/-- Accumulating decimal parse of a digit list; fails on any non-digit. -/
def parseNatAux : List Char → Nat → Option Nat
  | [], acc => some acc
  | c :: cs, acc =>
    match digitVal c with
    | some v => parseNatAux cs (acc * 10 + v)
    | none => none

/-- Parse of a nonempty decimal integer string, with optional leading
minus sign. -/
def parseIntStr (s : String) : Option Int :=
  match s.data with
  | [] => none
  | '-' :: rest =>
    match rest with
    | [] => none
    | _ => (parseNatAux rest 0).map (fun n => -(n : Int))
  | _ => (parseNatAux s.data 0).map (fun n => (n : Int))

/-- Modelled from the spec: permissive numeric parse (spec section 4.1):
empty string, `NaT` and `None` normalize to absent, as does an absent or
unparsable cell. -/
def parseNumOpt (o : Option String) : Option Int :=
  match o with
  | none => none
  | some s => if s = "" ∨ s = "NaT" ∨ s = "None" then none else parseIntStr s

/-- Modelled from the spec: parse of the nullable end timestamp (spec
section 4.1): an absent or null-like cell is open-ended, a present cell
must parse or the row is malformed. -/
def parseEndCol : Option String → Option (Option Int)
  | none => some none
  | some s =>
    if s = "" ∨ s = "NaT" ∨ s = "None" then some none
    else (parseIntStr s).map some

/-- Modelled from the spec: parse of the enrollment state, defaulting to
active on an unknown value. -/
def parseEnrollment : Option String → EnrollmentState
  | some "finished" => .finished
  | some "disabled" => .disabled
  | _ => .active

/-- Modelled from the spec: the Record Normalizer for one row (spec
section 4.1, not in the source tree): resolves column aliases, parses
numerics permissively, requires the identity columns and the start
timestamp, and fails (row skipped) otherwise. -/
def normalizeRow (row : RawRow) : Option CampaignRecord := do
  let pid ← getCol row ["provider_id", "Provider ID"]
  let so ← getCol row ["spend_objective", "Spend Objective"]
  let dt ← getCol row ["discount_type", "Discount Type"]
  let startRaw ← getCol row ["campaign_start", "Campaign Start"]
  let start ← parseIntStr startRaw
  let endVal ← parseEndCol (getCol row ["campaign_end", "Campaign End"])
  some
    { provider_id := pid
      provider_name := (getCol row ["provider_name", "Provider Name"]).getD ""
      account_manager := (getCol row ["account_manager", "Account Manager"]).getD ""
      city := (getCol row ["city", "City Name"]).getD ""
      campaign_id := (getCol row ["campaign_id", "Campaign ID"]).getD ""
      spend_objective := so
      discount_type := dt
      bonus_percentage := parseNumOpt (getCol row ["bonus_percentage", "Bonus Percentage"])
      bonus_max_value := parseNumOpt (getCol row ["bonus_max_value", "Bonus Max Value"])
      min_basket_size := parseNumOpt (getCol row ["min_basket_size", "Min Basket Size"])
      cost_share_percentage := parseNumOpt (getCol row ["cost_share_percentage", "Cost Share Percentage"])
      campaign_start := start
      campaign_end := endVal
      offer_mode := getCol row ["offer_mode", "Offer Mode"]
      enrollment_state := parseEnrollment (getCol row ["enrollment_state", "Enrollment State"]) }

/-- Modelled from the spec: batch normalization (spec section 4.1): rows
that fail normalization are skipped, not fatal. -/
def normalizeSnapshot (rows : List RawRow) : List CampaignRecord :=
  rows.filterMap normalizeRow

/-- Modelled from the spec: the typed failures of one engine invocation
(spec section 7).  Per-row malformed-record failures are recovered by
exclusion inside normalization and never surface here. -/
inductive EngineError where
  | emptySnapshot
deriving DecidableEq

/-- Snapshot built from normalized records, indexed by identity hash. -/
def toSnapshot (recs : List CampaignRecord) : Snapshot :=
  recs.map (fun r => (campaignHash r, r))

/-- Modelled from the spec: one whole diff invocation (spec sections 6
and 7, not in the source tree): normalize both snapshots, fail the whole
invocation with the empty-snapshot error when either has zero valid
records, otherwise return the complete diff. -/
def processInvocation (prevRows curRows : List RawRow) :
    Except EngineError (List ChangeEvent) :=
  let prev := normalizeSnapshot prevRows
  let cur := normalizeSnapshot curRows
  if prev.isEmpty || cur.isEmpty then .error .emptySnapshot
  else .ok (diff (toSnapshot prev) (toSnapshot cur))

/-- A blank frontend entry, base of the concrete test entries. -/
def sampleEntry : CampaignEntry :=
  { provider_id := "", provider_name := "", account_manager := "", city := ""
    campaign_id := "", spend_objective := "", bonus_type := ""
    bonus_percentage := none, bonus_max_value := none, min_basket_size := none
    campaign_start := "", campaign_end := none, campaign_hash := ""
    event_type := "", banner_action := "", date := "" }

/-- Two campaigns of the one provider P1. -/
def entryP1A : CampaignEntry :=
  { sampleEntry with provider_id := "P1", campaign_id := "A" }

/-- Second campaign of provider P1. -/
def entryP1B : CampaignEntry :=
  { sampleEntry with provider_id := "P1", campaign_id := "B" }

/-- Concrete entry with the alphabetically first provider name. -/
def entryAlpha : CampaignEntry :=
  { sampleEntry with provider_name := "alpha" }

/-- Concrete entry with the alphabetically second provider name. -/
def entryBeta : CampaignEntry :=
  { sampleEntry with provider_name := "beta" }

/-- Filter state with every filter inactive. -/
def emptyFilter : FilterState :=
  { accountManager := "", spendObjective := "", bonusType := "", providers := []
    city := "" }

/-- Filter state whose only active filter is the city. -/
def cityOnlyFilter : FilterState :=
  { emptyFilter with city := "Tbilisi" }

/-- Entry from a city other than the one being filtered for. -/
def otherCityEntry : CampaignEntry :=
  { sampleEntry with city := "Batumi" }

/-- A concrete normalized record, base of the engine test records. -/
def sampleRecord : CampaignRecord :=
  { provider_id := "P1", provider_name := "Cafe One", account_manager := "AM"
    city := "Tbilisi", campaign_id := "C100", spend_objective := "orders"
    discount_type := "flat", bonus_percentage := some 10
    bonus_max_value := some 30, min_basket_size := some 20
    cost_share_percentage := some 10, campaign_start := 20260101
    campaign_end := some 20260630, offer_mode := none
    enrollment_state := .active }

/-- Scenario E record: start 2026-01-01, open-ended end. -/
def scenarioE : CampaignRecord :=
  { sampleRecord with campaign_start := 20260101, campaign_end := none }

/-- Record with both dates present, for the monotonicity scenario. -/
def bothDatesRec : CampaignRecord :=
  { sampleRecord with campaign_start := 20260201, campaign_end := some 20260630 }

/-- Scenario C previous record: cost share 10. -/
def scenarioCPrev : CampaignRecord :=
  { sampleRecord with cost_share_percentage := some 10 }

/-- Scenario C current record: only the cost share moved to 15. -/
def scenarioCCur : CampaignRecord :=
  { sampleRecord with cost_share_percentage := some 15 }

/-- Scenario D previous record: start 2026-03-01. -/
def scenarioDPrev : CampaignRecord :=
  { sampleRecord with campaign_start := 20260301 }

/-- Scenario D current record: start pushed to 2026-03-10. -/
def scenarioDCur : CampaignRecord :=
  { sampleRecord with campaign_start := 20260310 }

/-- Previous snapshot of the no-op scenario. -/
def noopPrev : Snapshot :=
  [("h1", sampleRecord)]

/-- Current snapshot of the no-op scenario: same monitored fields, new
display name. -/
def noopCur : Snapshot :=
  [("h1", { sampleRecord with provider_name := "Cafe One Renamed" })]

/-- A raw row carrying every required column. -/
def goodRow : RawRow :=
  [("provider_id", "P1"), ("spend_objective", "orders"), ("discount_type", "flat"),
   ("campaign_start", "20260101"), ("bonus_percentage", "10")]

/-- A raw row missing the required provider id: normalization skips it. -/
def badRow : RawRow :=
  [("provider_name", "NoId"), ("campaign_start", "20260101")]

/-- Record with the identity tuple of `sampleRecord` but different
mutable attributes. -/
def sampleRecordTwin : CampaignRecord :=
  { sampleRecord with campaign_id := "X", campaign_end := some 20270101 }

/-- Previous snapshot of the partition scenario: one identity that will
vanish and one that will update. -/
def demoPrev : Snapshot :=
  [("hEnd", sampleRecord), ("hUpd", scenarioCPrev)]

/-- Current snapshot of the partition scenario: the updated identity and
a fresh one. -/
def demoCur : Snapshot :=
  [("hUpd", scenarioCCur), ("hNew", sampleRecord)]

theorem charToNat_injective : Function.Injective Char.toNat := by
  intro c d h
  exact Char.eq_of_val_eq (UInt32.ext h)

theorem strKey_injective : Function.Injective strKey := by
  intro a b h
  exact String.ext (List.map_injective_iff.mpr charToNat_injective h)

theorem strLt_irrefl (a : String) : ¬ strLt a a :=
  lt_irrefl (strKey a)

theorem strLt_trans {a b c : String} (h1 : strLt a b) (h2 : strLt b c) :
    strLt a c :=
  lt_trans h1 h2

theorem strLt_trichotomy (a b : String) : strLt a b ∨ a = b ∨ strLt b a := by
  rcases lt_trichotomy (strKey a) (strKey b) with h | h | h
  · exact Or.inl h
  · exact Or.inr (Or.inl (strKey_injective h))
  · exact Or.inr (Or.inr h)

theorem strLt_conn {a b : String} (h1 : ¬ strLt a b) (h2 : ¬ strLt b a) :
    a = b := by
  rcases strLt_trichotomy a b with h | h | h
  · exact absurd h h1
  · exact h
  · exact absurd h h2

theorem jsLocaleCompare_eq_zero (a b : String) :
    jsLocaleCompare a b = 0 ↔ a = b := by
  unfold jsLocaleCompare
  split_ifs with h1 h2
  · constructor
    · intro h; norm_num at h
    · rintro rfl; exact absurd h1 (strLt_irrefl a)
  · constructor
    · intro h; norm_num at h
    · rintro rfl; exact absurd h2 (strLt_irrefl a)
  · simp [strLt_conn h1 h2]

theorem jsLocaleCompare_nonpos (a b : String) :
    jsLocaleCompare a b ≤ 0 ↔ strLt a b ∨ a = b := by
  unfold jsLocaleCompare
  split_ifs with h1 h2
  · constructor
    · intro _; exact Or.inl h1
    · intro _; norm_num
  · constructor
    · intro h; norm_num at h
    · rintro (h | rfl)
      · exact absurd h h1
      · exact absurd h2 (strLt_irrefl a)
  · constructor
    · intro _; exact Or.inr (strLt_conn h1 h2)
    · intro _; norm_num

theorem foldl_jsSetInsert_mem (keys : List String) :
    ∀ (acc : List String) (x : String),
      x ∈ keys.foldl jsSetInsert acc ↔ x ∈ acc ∨ x ∈ keys := by
  induction keys with
  | nil => intro acc x; simp
  | cons k ks ih =>
    intro acc x
    rw [List.foldl_cons, ih]
    unfold jsSetInsert
    split_ifs with h
    · rw [List.mem_cons]
      constructor
      · rintro (hx | hx)
        · exact Or.inl hx
        · exact Or.inr (Or.inr hx)
      · rintro (hx | rfl | hx)
        · exact Or.inl hx
        · exact Or.inl h
        · exact Or.inr hx
    · rw [List.mem_cons, List.mem_append, List.mem_singleton]
      tauto

theorem foldl_jsSetInsert_nodup (keys : List String) :
    ∀ acc : List String, acc.Nodup → (keys.foldl jsSetInsert acc).Nodup := by
  induction keys with
  | nil => intro acc h; simpa using h
  | cons k ks ih =>
    intro acc h
    rw [List.foldl_cons]
    apply ih
    unfold jsSetInsert
    split_ifs with hk
    · exact h
    · simp [List.nodup_append, h, hk]

/-- C1: the distinct-provider count of `getStats` in providers mode is the
cardinality of the set of provider keys — each provider is counted exactly
once however many campaigns it has — and the key is the provider id when
present, the provider name only when the id is absent. -/
theorem distinct_provider_count (entries : List CampaignEntry) :
    getStats .providers entries = (entries.map providerKey).toFinset.card ∧
    ∀ e : CampaignEntry,
      (e.provider_id ≠ "" → providerKey e = e.provider_id) ∧
      (e.provider_id = "" → providerKey e = e.provider_name) := by
  constructor
  · show ((entries.map providerKey).foldl jsSetInsert []).length = _
    have hnd : ((entries.map providerKey).foldl jsSetInsert []).Nodup :=
      foldl_jsSetInsert_nodup (entries.map providerKey) [] (by simp)
    have hset : ((entries.map providerKey).foldl jsSetInsert []).toFinset =
        (entries.map providerKey).toFinset := by
      ext x
      simpa [List.mem_toFinset] using
        foldl_jsSetInsert_mem (entries.map providerKey) [] x
    rw [← hset, List.toFinset_card_of_nodup hnd]
  · intro e
    constructor <;> intro h <;> simp [providerKey, h]

/-- Closed instance of C1: the two campaigns of provider P1 count as one
distinct provider, and the key of a record with a provider id is that
id. -/
theorem distinct_provider_count_witness :
    getStats .providers [entryP1A, entryP1B] = 1 ∧
      providerKey entryP1A = "P1" := by
  have h := distinct_provider_count [entryP1A, entryP1B]
  exact ⟨h.1.trans (by decide), (h.2 entryP1A).1 (by decide)⟩

theorem entryLE_iff_sortSpecLE (a b : CampaignEntry) :
    entryLE a b ↔ sortSpecLE a b := by
  unfold entryLE entryCompare sortSpecLE
  split_ifs with h1 h2
  · have hne : a.provider_name ≠ b.provider_name := fun he =>
      h1 ((jsLocaleCompare_eq_zero _ _).mpr he)
    constructor
    · intro h
      rcases (jsLocaleCompare_nonpos _ _).mp h with hlt | he
      · exact Or.inl hlt
      · exact absurd he hne
    · rintro (hlt | ⟨he, _⟩)
      · exact (jsLocaleCompare_nonpos _ _).mpr (Or.inl hlt)
      · exact absurd he hne
  · have he : a.provider_name = b.provider_name :=
      (jsLocaleCompare_eq_zero _ _).mp (not_not.mp h1)
    have hnlt : ¬ strLt a.provider_name b.provider_name := he ▸ strLt_irrefl _
    constructor
    · intro h
      exact Or.inr ⟨he, Or.inl (by omega)⟩
    · rintro (hlt | ⟨_, hb | ⟨hbe, _⟩⟩)
      · exact absurd hlt hnlt
      · omega
      · omega
  · have he : a.provider_name = b.provider_name :=
      (jsLocaleCompare_eq_zero _ _).mp (not_not.mp h1)
    have hnlt : ¬ strLt a.provider_name b.provider_name := he ▸ strLt_irrefl _
    have hbe : a.bonus_percentage.getD 0 = b.bonus_percentage.getD 0 := by omega
    rw [jsLocaleCompare_nonpos]
    constructor
    · rintro (hlt | heq)
      · exact Or.inr ⟨he, Or.inr ⟨hbe, Or.inl hlt⟩⟩
      · exact Or.inr ⟨he, Or.inr ⟨hbe, Or.inr heq⟩⟩
    · rintro (hlt | ⟨_, hb | ⟨_, hlt | heq⟩⟩)
      · exact absurd hlt hnlt
      · omega
      · exact Or.inl hlt
      · exact Or.inr heq

theorem sortSpecLE_total (a b : CampaignEntry) :
    sortSpecLE a b ∨ sortSpecLE b a := by
  unfold sortSpecLE
  rcases strLt_trichotomy a.provider_name b.provider_name with h | h | h
  · exact Or.inl (Or.inl h)
  · rcases lt_trichotomy (a.bonus_percentage.getD 0) (b.bonus_percentage.getD 0)
      with hb | hb | hb
    · exact Or.inr (Or.inr ⟨h.symm, Or.inl hb⟩)
    · rcases strLt_trichotomy (a.campaign_end.getD "") (b.campaign_end.getD "")
        with he | he | he
      · exact Or.inl (Or.inr ⟨h, Or.inr ⟨hb, Or.inl he⟩⟩)
      · exact Or.inl (Or.inr ⟨h, Or.inr ⟨hb, Or.inr he⟩⟩)
      · exact Or.inr (Or.inr ⟨h.symm, Or.inr ⟨hb.symm, Or.inl he⟩⟩)
    · exact Or.inl (Or.inr ⟨h, Or.inl hb⟩)
  · exact Or.inr (Or.inl h)

theorem sortSpecLE_trans {a b c : CampaignEntry} (h1 : sortSpecLE a b)
    (h2 : sortSpecLE b c) : sortSpecLE a c := by
  unfold sortSpecLE at *
  rcases h1 with hn1 | ⟨he1, h1⟩ <;> rcases h2 with hn2 | ⟨he2, h2⟩
  · exact Or.inl (strLt_trans hn1 hn2)
  · exact Or.inl (he2 ▸ hn1)
  · exact Or.inl (he1 ▸ hn2)
  · refine Or.inr ⟨he1.trans he2, ?_⟩
    rcases h1 with hb1 | ⟨hbe1, h1⟩ <;> rcases h2 with hb2 | ⟨hbe2, h2⟩
    · exact Or.inl (by omega)
    · exact Or.inl (by omega)
    · exact Or.inl (by omega)
    · refine Or.inr ⟨by omega, ?_⟩
      rcases h1 with hl1 | hee1 <;> rcases h2 with hl2 | hee2
      · exact Or.inl (strLt_trans hl1 hl2)
      · exact Or.inl (hee2 ▸ hl1)
      · exact Or.inl (hee1 ▸ hl2)
      · exact Or.inr (hee1.trans hee2)

/-- C9: the displayed row list of the data table is a permutation of the
input, sorted by provider name ascending, then bonus percentage
descending (missing as 0), then campaign end ascending as strings
(missing as the empty string); the comparator order coincides with that
lexicographic order, and the input list is untouched (the sort works on a
copy). -/
theorem dataTable_sort_spec (data : List CampaignEntry) :
    (sortedData data).Perm data ∧
    (sortedData data).Sorted sortSpecLE ∧
    ∀ a b : CampaignEntry, entryLE a b ↔ sortSpecLE a b := by
  haveI : IsTotal CampaignEntry entryLE := ⟨fun a b => by
    rw [entryLE_iff_sortSpecLE, entryLE_iff_sortSpecLE]
    exact sortSpecLE_total a b⟩
  haveI : IsTrans CampaignEntry entryLE := ⟨fun a b c h1 h2 => by
    rw [entryLE_iff_sortSpecLE] at h1 h2 ⊢
    exact sortSpecLE_trans h1 h2⟩
  refine ⟨List.perm_insertionSort entryLE data, ?_, entryLE_iff_sortSpecLE⟩
  exact (List.sorted_insertionSort entryLE data).imp
    (fun h => (entryLE_iff_sortSpecLE _ _).mp h)

/-- Closed instance of C9: sorting the two-entry list is a permutation of
it, and the alphabetically first provider name sorts first. -/
theorem dataTable_sort_witness :
    (sortedData [entryBeta, entryAlpha]).Perm [entryBeta, entryAlpha] ∧
      sortSpecLE entryAlpha entryBeta := by
  have h := dataTable_sort_spec [entryBeta, entryAlpha]
  exact ⟨h.1, (h.2.2 entryAlpha entryBeta).mp (by decide)⟩

theorem pageFilterFn_eq_true (f : FilterState) (e : CampaignEntry) :
    pageFilterFn f e = true ↔ matchesAllFilters f e := by
  unfold pageFilterFn matchesAllFilters
  split_ifs with h1 h2 h3 h4 h5
  · simp only [Bool.false_eq_true, false_iff]
    rintro ⟨c1, _, _, _, _⟩
    exact h1.2 (c1 h1.1)
  · simp only [Bool.false_eq_true, false_iff]
    rintro ⟨_, c2, _, _, _⟩
    exact h2.2 (c2 h2.1)
  · simp only [Bool.false_eq_true, false_iff]
    rintro ⟨_, _, c3, _, _⟩
    exact h3.2 (c3 h3.1)
  · simp only [Bool.false_eq_true, false_iff]
    rintro ⟨_, _, _, c4, _⟩
    exact h4.2 (c4 h4.1)
  · simp only [Bool.false_eq_true, false_iff]
    rintro ⟨_, _, _, _, c5⟩
    exact h5.2 (c5 (List.length_pos.mp h5.1))
  · simp only [true_iff]
    push_neg at h1 h2 h3 h4 h5
    exact ⟨h1, h2, h3, h4, fun hne => h5 (List.length_pos.mpr hne)⟩

theorem calendarFilterFn_eq_true (f : FilterState) (e : CampaignEntry) :
    calendarFilterFn f e = true ↔ matchesFiltersExceptCity f e := by
  unfold calendarFilterFn matchesFiltersExceptCity
  split_ifs with h1 h2 h3 h4
  · simp only [Bool.false_eq_true, false_iff]
    rintro ⟨c1, _, _, _⟩
    exact h1.2 (c1 h1.1)
  · simp only [Bool.false_eq_true, false_iff]
    rintro ⟨_, c2, _, _⟩
    exact h2.2 (c2 h2.1)
  · simp only [Bool.false_eq_true, false_iff]
    rintro ⟨_, _, c3, _⟩
    exact h3.2 (c3 h3.1)
  · simp only [Bool.false_eq_true, false_iff]
    rintro ⟨_, _, _, c4⟩
    exact h4.2 (c4 (List.length_pos.mp h4.1))
  · simp only [true_iff]
    push_neg at h1 h2 h3 h4
    exact ⟨h1, h2, h3, fun hne => h4 (List.length_pos.mpr hne)⟩

/-- C10 counterexample: on the calendar page, with only the city filter
active, an entry from a different city still appears in the filtered
group, so membership is not the conjunction of all active filters
there. -/
theorem calendar_city_filter_counterexample :
    otherCityEntry ∈ List.filter (calendarFilterFn cityOnlyFilter) [otherCityEntry] ∧
      ¬ matchesAllFilters cityOnlyFilter otherCityEntry := by
  constructor
  · decide
  · intro h
    exact absurd (h.2.2.2.1 (by decide)) (by decide)

/-- C10 (amended): on the changelog and banners pages an entry appears in
a filtered detail group exactly when it meets every active filter; on the
calendar page exactly when it meets every active filter other than the
city (the city filter is applied server-side there); and with every
filter inactive each page's filtered groups equal the fetched groups
unchanged. -/
theorem filtered_groups_spec :
    (∀ (f : FilterState) (l : List CampaignEntry) (e : CampaignEntry),
      (e ∈ l.filter (pageFilterFn f) ↔ e ∈ l ∧ matchesAllFilters f e) ∧
      (e ∈ l.filter (calendarFilterFn f) ↔ e ∈ l ∧ matchesFiltersExceptCity f e)) ∧
    (∀ (f : FilterState) (l : List CampaignEntry), inactiveFilters f →
      l.filter (pageFilterFn f) = l ∧ l.filter (calendarFilterFn f) = l) := by
  constructor
  · intro f l e
    constructor
    · rw [List.mem_filter, pageFilterFn_eq_true]
    · rw [List.mem_filter, calendarFilterFn_eq_true]
  · intro f l hf
    obtain ⟨h1, h2, h3, h4, h5⟩ := hf
    constructor
    · apply List.filter_eq_self.mpr
      intro e _
      rw [pageFilterFn_eq_true]
      exact ⟨fun hne => absurd h1 hne, fun hne => absurd h2 hne,
        fun hne => absurd h3 hne, fun hne => absurd h5 hne,
        fun hne => absurd h4 hne⟩
    · apply List.filter_eq_self.mpr
      intro e _
      rw [calendarFilterFn_eq_true]
      exact ⟨fun hne => absurd h1 hne, fun hne => absurd h2 hne,
        fun hne => absurd h3 hne, fun hne => absurd h4 hne⟩

/-- Closed instance of the amended C10: with no filter active the
changelog-page filter keeps the list unchanged, and membership in a
filtered group is equivalent to matching all active filters. -/
theorem filtered_groups_witness :
    List.filter (pageFilterFn emptyFilter) [otherCityEntry] = [otherCityEntry] ∧
      (otherCityEntry ∈ List.filter (pageFilterFn cityOnlyFilter) [otherCityEntry] ↔
        otherCityEntry ∈ [otherCityEntry] ∧
          matchesAllFilters cityOnlyFilter otherCityEntry) :=
  ⟨(filtered_groups_spec.2 emptyFilter [otherCityEntry] (by decide)).1,
   (filtered_groups_spec.1 cityOnlyFilter [otherCityEntry] otherCityEntry).1⟩

theorem endBefore_eq_true (o : Option Int) (d : Int) :
    endBefore o d = true ↔ ∃ e, o = some e ∧ e < d := by
  cases o with
  | none => simp [endBefore]
  | some e => simp [endBefore]

/-- C3: the classifier returns finished exactly when the end date is
present and strictly before the reference date, otherwise scheduled
exactly when the start date is strictly after the reference date,
otherwise live (covering the open-ended case); the enrollment state never
changes the result; and the scenario record with start 2026-01-01, no end
date and reference date 2026-06-01 classifies as live. -/
theorem classify_spec :
    (∀ (r : CampaignRecord) (d : Int),
      (classify r d = .finished ↔ ∃ e, r.campaign_end = some e ∧ e < d) ∧
      (classify r d = .scheduled ↔
        ¬ (∃ e, r.campaign_end = some e ∧ e < d) ∧ d < r.campaign_start) ∧
      (classify r d = .live ↔
        ¬ (∃ e, r.campaign_end = some e ∧ e < d) ∧ ¬ d < r.campaign_start) ∧
      (∀ s, classify { r with enrollment_state := s } d = classify r d)) ∧
    classify scenarioE 20260601 = .live := by
  constructor
  · intro r d
    have hE := endBefore_eq_true r.campaign_end d
    refine ⟨?_, ?_, ?_, fun s => rfl⟩
    · unfold classify
      split_ifs with h1 h2 <;> simp_all
    · unfold classify
      split_ifs with h1 h2 <;> simp_all
    · unfold classify
      split_ifs with h1 h2 <;> simp_all
  · decide

/-- Closed instance of C3: scenario E classifies as live and disabling
the enrollment does not change the classification. -/
theorem classify_spec_witness :
    classify scenarioE 20260601 = .live ∧
      classify { scenarioE with enrollment_state := .disabled } 20260601 =
        classify scenarioE 20260601 :=
  ⟨classify_spec.2, (classify_spec.1 scenarioE 20260601).2.2.2 .disabled⟩

theorem status_exclusive (s : CalendarStatus) :
    (s = .scheduled ∧ s ≠ .live ∧ s ≠ .finished) ∨
    (s = .live ∧ s ≠ .scheduled ∧ s ≠ .finished) ∨
    (s = .finished ∧ s ≠ .scheduled ∧ s ≠ .live) := by
  cases s <;> simp

/-- C7: for a record with both dates present, exactly one of the three
statuses holds at any reference date, and the classification is monotone
in the reference date along the rank scheduled, live, finished. -/
theorem classify_monotone (r : CampaignRecord) (e d d' : Int)
    (hend : r.campaign_end = some e) (hdd : d ≤ d') :
    statusRank (classify r d) ≤ statusRank (classify r d') ∧
    ((classify r d = .scheduled ∧ classify r d ≠ .live ∧ classify r d ≠ .finished) ∨
     (classify r d = .live ∧ classify r d ≠ .scheduled ∧ classify r d ≠ .finished) ∨
     (classify r d = .finished ∧ classify r d ≠ .scheduled ∧ classify r d ≠ .live)) := by
  refine ⟨?_, status_exclusive _⟩
  have hc : ∀ x : Int, classify r x =
      if e < x then .finished else if x < r.campaign_start then .scheduled
      else .live := by
    intro x
    unfold classify
    rw [hend]
    simp [endBefore]
  rw [hc d, hc d']
  split_ifs <;> simp [statusRank] <;> omega

/-- Closed instance of C7: advancing the reference date across the
scenario record's window never lowers the status rank. -/
theorem classify_monotone_witness :
    statusRank (classify bothDatesRec 20260110) ≤
      statusRank (classify bothDatesRec 20260710) :=
  (classify_monotone bothDatesRec 20260630 20260110 20260710 (by decide)
    (by decide)).1

/-- C4: the resolver maps every start event to banner-start and every end
event to banner-end; an update resolves to banner-update exactly when the
changed-field list meets {min_basket_size, campaign_id, campaign_end} or
campaign_start changed with the new start strictly after the reference
date, and to no action otherwise; in particular the scenario update whose
only changed field is cost_share_percentage resolves to none. -/
theorem resolve_spec :
    (∀ (i : String) (c : CampaignRecord) (d : Int),
      resolve (.campaignStart i c) d = some .bannerStart) ∧
    (∀ (i : String) (p : CampaignRecord) (d : Int),
      resolve (.campaignEnd i p) d = some .bannerEnd) ∧
    (∀ (i : String) (p c : CampaignRecord) (ch : List (String × FieldVal)) (d : Int),
      (resolve (.campaignUpdate i p c ch) d = some .bannerUpdate ↔
        (("min_basket_size" ∈ ch.map Prod.fst ∨ "campaign_id" ∈ ch.map Prod.fst ∨
          "campaign_end" ∈ ch.map Prod.fst) ∨
         ("campaign_start" ∈ ch.map Prod.fst ∧ d < c.campaign_start))) ∧
      (resolve (.campaignUpdate i p c ch) d = none ↔
        ¬ (("min_basket_size" ∈ ch.map Prod.fst ∨ "campaign_id" ∈ ch.map Prod.fst ∨
          "campaign_end" ∈ ch.map Prod.fst) ∨
         ("campaign_start" ∈ ch.map Prod.fst ∧ d < c.campaign_start)))) ∧
    (changedFieldsOf scenarioCPrev scenarioCCur =
        [("cost_share_percentage", FieldVal.num (some 10))] ∧
      resolve (.campaignUpdate "H3" scenarioCPrev scenarioCCur
        (changedFieldsOf scenarioCPrev scenarioCCur)) 20260215 = none) := by
  refine ⟨fun i c d => rfl, fun i p d => rfl, ?_, by decide, by decide⟩
  intro i p c ch d
  simp only [resolve]
  split_ifs with h1 h2 <;> simp_all
  exact h2

/-- Closed instance of C4: a start event resolves to banner-start, and
the scenario D update (start pushed into the future of the reference
date) resolves to banner-update. -/
theorem resolve_spec_witness :
    resolve (.campaignStart "H2" sampleRecord) 0 = some .bannerStart ∧
      resolve (.campaignUpdate "H4" scenarioDPrev scenarioDCur
        (changedFieldsOf scenarioDPrev scenarioDCur)) 20260215 =
          some .bannerUpdate :=
  ⟨resolve_spec.1 "H2" sampleRecord 0,
   ((resolve_spec.2.2.1 "H4" scenarioDPrev scenarioDCur
      (changedFieldsOf scenarioDPrev scenarioDCur) 20260215).1).mpr (by decide)⟩

theorem append_sep_cancel {l1 r1 l2 r2 : List Char}
    (h1 : '|' ∉ l1) (h2 : '|' ∉ l2)
    (heq : l1 ++ '|' :: r1 = l2 ++ '|' :: r2) : l1 = l2 ∧ r1 = r2 := by
  induction l1 generalizing l2 with
  | nil =>
    cases l2 with
    | nil =>
      simpa using heq
    | cons b bs =>
      simp only [List.nil_append, List.cons_append, List.cons.injEq] at heq
      exact absurd (heq.1 ▸ List.mem_cons_self b bs) (heq.1 ▸ h2)
  | cons a as ih =>
    cases l2 with
    | nil =>
      simp only [List.nil_append, List.cons_append, List.cons.injEq] at heq
      exact absurd (heq.1 ▸ List.mem_cons_self a as) (heq.1 ▸ h1)
    | cons b bs =>
      simp only [List.cons_append, List.cons.injEq] at heq
      have hrest := ih (fun hm => h1 (List.mem_cons_of_mem a hm))
        (fun hm => h2 (List.mem_cons_of_mem b hm)) heq.2
      exact ⟨by rw [heq.1, hrest.1], hrest.2⟩

theorem hashInput_data (a b c d : String) :
    (hashInput a b c d).data =
      a.data ++ '|' :: (b.data ++ '|' :: (c.data ++ '|' :: d.data)) := by
  simp [hashInput, String.data_append, List.append_assoc]

/-- C6: the identity hash is a pure, seed-free function of the ordered
identity tuple (identical tuples give identical hashes), and the digest
input determines the tuple whenever the fields are free of the separator,
so two differing separator-free tuples never produce the same digest
input. -/
theorem campaign_hash_spec :
    (∀ r1 r2 : CampaignRecord, identityTuple r1 = identityTuple r2 →
      campaignHash r1 = campaignHash r2) ∧
    (∀ a1 b1 c1 d1 a2 b2 c2 d2 : String,
      sepFree a1 → sepFree b1 → sepFree c1 → sepFree d1 →
      sepFree a2 → sepFree b2 → sepFree c2 → sepFree d2 →
      hashInput a1 b1 c1 d1 = hashInput a2 b2 c2 d2 →
      a1 = a2 ∧ b1 = b2 ∧ c1 = c2 ∧ d1 = d2) := by
  constructor
  · intro r1 r2 h
    unfold campaignHash
    rw [h]
  · intro a1 b1 c1 d1 a2 b2 c2 d2 ha1 hb1 hc1 hd1 ha2 hb2 hc2 hd2 heq
    have hdata := congrArg String.data heq
    rw [hashInput_data, hashInput_data] at hdata
    obtain ⟨hA, hdata⟩ := append_sep_cancel ha1 ha2 hdata
    obtain ⟨hB, hdata⟩ := append_sep_cancel hb1 hb2 hdata
    obtain ⟨hC, hD⟩ := append_sep_cancel hc1 hc2 hdata
    exact ⟨String.ext hA, String.ext hB, String.ext hC, String.ext hD⟩

/-- Closed instance of C6: records sharing the identity tuple but
differing in campaign id and end date hash identically, and the
tuple-boundary pair ab,c versus a,bc yields distinct digest inputs. -/
theorem campaign_hash_witness :
    campaignHash sampleRecord = campaignHash sampleRecordTwin ∧
    hashInput "ab" "c" "x" "y" ≠ hashInput "a" "bc" "x" "y" := by
  constructor
  · exact campaign_hash_spec.1 _ _ (by decide)
  · intro heq
    have h := campaign_hash_spec.2 "ab" "c" "x" "y" "a" "bc" "x" "y"
      (by decide) (by decide) (by decide) (by decide)
      (by decide) (by decide) (by decide) (by decide) heq
    exact absurd h.1 (by decide)

theorem mem_keys_iff_pair (l : Snapshot) (h : String) :
    h ∈ snapKeys l ↔ ∃ r, (h, r) ∈ l := by
  unfold snapKeys
  rw [List.mem_map]
  constructor
  · rintro ⟨⟨k, r⟩, hm, rfl⟩
    exact ⟨r, hm⟩
  · rintro ⟨r, hm⟩
    exact ⟨(h, r), hm, rfl⟩

theorem mem_keys_iff_lookup (h : String) (l : Snapshot) :
    h ∈ snapKeys l ↔ ∃ r, List.lookup h l = some r := by
  induction l with
  | nil => simp [snapKeys]
  | cons pc t ih =>
    obtain ⟨a, b⟩ := pc
    by_cases hk : h = a
    · subst hk
      simp [snapKeys, List.lookup]
    · have hba : (h == a) = false := beq_eq_false_iff_ne.mpr hk
      have hkeys : h ∈ snapKeys ((a, b) :: t) ↔ h ∈ snapKeys t := by
        simp [snapKeys, hk]
      have hlook : List.lookup h ((a, b) :: t) = List.lookup h t := by
        simp [List.lookup, hba]
      rw [hkeys, hlook, ih]

theorem mem_iff_lookup (l : Snapshot) (h : String) (r : CampaignRecord) :
    (snapKeys l).Nodup → ((h, r) ∈ l ↔ List.lookup h l = some r) := by
  induction l with
  | nil => simp
  | cons pc t ih =>
    obtain ⟨a, b⟩ := pc
    intro hnd
    have hnd2 : a ∉ snapKeys t ∧ (snapKeys t).Nodup := by
      simpa [snapKeys, List.nodup_cons] using hnd
    by_cases hk : h = a
    · subst hk
      rw [List.mem_cons]
      simp only [List.lookup, beq_self_eq_true, Prod.mk.injEq, true_and]
      constructor
      · rintro (rfl | hm)
        · rfl
        · exact absurd ((mem_keys_iff_pair t h).mpr ⟨r, hm⟩) hnd2.1
      · intro hbr
        exact Or.inl (Option.some.inj hbr).symm
    · have hba : (h == a) = false := beq_eq_false_iff_ne.mpr hk
      rw [List.mem_cons]
      simp only [List.lookup, hba, Prod.mk.injEq]
      rw [← ih hnd2.2]
      simp [hk]

theorem mem_diff_start (prev cur : Snapshot) (i : String) (r : CampaignRecord) :
    ChangeEvent.campaignStart i r ∈ diff prev cur ↔
      (i, r) ∈ cur ∧ i ∉ snapKeys prev := by
  unfold diff
  simp only [List.mem_append, List.mem_map, List.mem_filter, List.mem_filterMap,
    decide_eq_true_eq]
  constructor
  · rintro ((⟨⟨k, c⟩, ⟨hm, hk⟩, heq⟩ | ⟨⟨k, c⟩, ⟨hm, hk⟩, heq⟩) | ⟨⟨k, c⟩, hm, heq⟩)
    · injection heq with h1 h2
      subst h1
      subst h2
      exact ⟨hm, hk⟩
    · exact absurd heq (by simp)
    · rcases hl : List.lookup k prev with _ | p
      · rw [hl] at heq
        simp at heq
      · rw [hl] at heq
        dsimp only at heq
        split_ifs at heq
        simp at heq
  · rintro ⟨hm, hk⟩
    exact Or.inl (Or.inl ⟨(i, r), ⟨hm, hk⟩, rfl⟩)

theorem mem_diff_end (prev cur : Snapshot) (i : String) (r : CampaignRecord) :
    ChangeEvent.campaignEnd i r ∈ diff prev cur ↔
      (i, r) ∈ prev ∧ i ∉ snapKeys cur := by
  unfold diff
  simp only [List.mem_append, List.mem_map, List.mem_filter, List.mem_filterMap,
    decide_eq_true_eq]
  constructor
  · rintro ((⟨⟨k, c⟩, ⟨hm, hk⟩, heq⟩ | ⟨⟨k, c⟩, ⟨hm, hk⟩, heq⟩) | ⟨⟨k, c⟩, hm, heq⟩)
    · exact absurd heq (by simp)
    · injection heq with h1 h2
      subst h1
      subst h2
      exact ⟨hm, hk⟩
    · rcases hl : List.lookup k prev with _ | p
      · rw [hl] at heq
        simp at heq
      · rw [hl] at heq
        dsimp only at heq
        split_ifs at heq
        simp at heq
  · rintro ⟨hm, hk⟩
    exact Or.inl (Or.inr ⟨(i, r), ⟨hm, hk⟩, rfl⟩)

theorem mem_diff_update (prev cur : Snapshot) (i : String)
    (p c : CampaignRecord) (ch : List (String × FieldVal)) :
    ChangeEvent.campaignUpdate i p c ch ∈ diff prev cur ↔
      ((i, c) ∈ cur ∧ List.lookup i prev = some p ∧ ¬ monitoredEq p c ∧
        ch = changedFieldsOf p c) := by
  unfold diff
  simp only [List.mem_append, List.mem_map, List.mem_filter, List.mem_filterMap,
    decide_eq_true_eq]
  constructor
  · rintro ((⟨⟨k, c'⟩, ⟨hm, hk⟩, heq⟩ | ⟨⟨k, c'⟩, ⟨hm, hk⟩, heq⟩) | ⟨⟨k, c'⟩, hm, heq⟩)
    · exact absurd heq (by simp)
    · exact absurd heq (by simp)
    · rcases hl : List.lookup k prev with _ | p'
      · rw [hl] at heq
        simp at heq
      · rw [hl] at heq
        dsimp only at heq
        split_ifs at heq with hmon
        obtain ⟨rfl, rfl, rfl, rfl⟩ := heq
        exact ⟨hm, hl, hmon, rfl⟩
  · rintro ⟨hm, hl, hmon, rfl⟩
    refine Or.inr ⟨(i, c), hm, ?_⟩
    rw [hl]
    simp [hmon]

theorem exists_start_event (l : List ChangeEvent) (h : String) :
    (∃ ev ∈ l, eventKind ev = .started ∧ eventIdentity ev = h) ↔
      ∃ r, ChangeEvent.campaignStart h r ∈ l := by
  constructor
  · rintro ⟨ev, hm, hk, hi⟩
    cases ev with
    | campaignStart i r =>
      simp only [eventIdentity] at hi
      subst hi
      exact ⟨r, hm⟩
    | campaignEnd i r => simp [eventKind] at hk
    | campaignUpdate i a b chs => simp [eventKind] at hk
  · rintro ⟨r, hm⟩
    exact ⟨.campaignStart h r, hm, rfl, rfl⟩

theorem exists_end_event (l : List ChangeEvent) (h : String) :
    (∃ ev ∈ l, eventKind ev = .ended ∧ eventIdentity ev = h) ↔
      ∃ r, ChangeEvent.campaignEnd h r ∈ l := by
  constructor
  · rintro ⟨ev, hm, hk, hi⟩
    cases ev with
    | campaignStart i r => simp [eventKind] at hk
    | campaignEnd i r =>
      simp only [eventIdentity] at hi
      subst hi
      exact ⟨r, hm⟩
    | campaignUpdate i a b chs => simp [eventKind] at hk
  · rintro ⟨r, hm⟩
    exact ⟨.campaignEnd h r, hm, rfl, rfl⟩

theorem exists_update_event (l : List ChangeEvent) (h : String) :
    (∃ ev ∈ l, eventKind ev = .updated ∧ eventIdentity ev = h) ↔
      ∃ p c chs, ChangeEvent.campaignUpdate h p c chs ∈ l := by
  constructor
  · rintro ⟨ev, hm, hk, hi⟩
    cases ev with
    | campaignStart i r => simp [eventKind] at hk
    | campaignEnd i r => simp [eventKind] at hk
    | campaignUpdate i a b chs =>
      simp only [eventIdentity] at hi
      subst hi
      exact ⟨a, b, chs, hm⟩
  · rintro ⟨p, c, chs, hm⟩
    exact ⟨.campaignUpdate h p c chs, hm, rfl, rfl⟩

/-- C2: for any pair of snapshots with well-formed (duplicate-free) key
lists, the start, end and updated identity sets are pairwise disjoint,
together with the unchanged set they exactly partition the union of the
two snapshots' identity sets, and an identity receives a start (end,
update) event of the diff exactly when it lies in the corresponding
set. -/
theorem diff_partition (prev cur : Snapshot)
    (_hp : (snapKeys prev).Nodup) (hc : (snapKeys cur).Nodup) :
    (Disjoint (startIds prev cur) (endIds prev cur) ∧
     Disjoint (startIds prev cur) (updatedIds prev cur) ∧
     Disjoint (endIds prev cur) (updatedIds prev cur) ∧
     Disjoint (startIds prev cur) (unchangedIds prev cur) ∧
     Disjoint (endIds prev cur) (unchangedIds prev cur) ∧
     Disjoint (updatedIds prev cur) (unchangedIds prev cur)) ∧
    (startIds prev cur ∪ endIds prev cur ∪ updatedIds prev cur ∪
        unchangedIds prev cur =
      (snapKeys prev).toFinset ∪ (snapKeys cur).toFinset) ∧
    (∀ h : String,
      ((∃ ev ∈ diff prev cur, eventKind ev = .started ∧ eventIdentity ev = h) ↔
        h ∈ startIds prev cur) ∧
      ((∃ ev ∈ diff prev cur, eventKind ev = .ended ∧ eventIdentity ev = h) ↔
        h ∈ endIds prev cur) ∧
      ((∃ ev ∈ diff prev cur, eventKind ev = .updated ∧ eventIdentity ev = h) ↔
        h ∈ updatedIds prev cur)) := by
  refine ⟨⟨?_, ?_, ?_, ?_, ?_, ?_⟩, ?_, ?_⟩
  · rw [Finset.disjoint_left]
    intro a ha hb
    simp only [startIds, endIds, Finset.mem_sdiff, List.mem_toFinset] at ha hb
    tauto
  · rw [Finset.disjoint_left]
    intro a ha hb
    simp only [startIds, updatedIds, sharedIds, Finset.mem_sdiff,
      Finset.mem_filter, Finset.mem_inter, List.mem_toFinset] at ha hb
    tauto
  · rw [Finset.disjoint_left]
    intro a ha hb
    simp only [endIds, updatedIds, sharedIds, Finset.mem_sdiff,
      Finset.mem_filter, Finset.mem_inter, List.mem_toFinset] at ha hb
    tauto
  · rw [Finset.disjoint_left]
    intro a ha hb
    simp only [startIds, unchangedIds, sharedIds, Finset.mem_sdiff,
      Finset.mem_filter, Finset.mem_inter, List.mem_toFinset] at ha hb
    tauto
  · rw [Finset.disjoint_left]
    intro a ha hb
    simp only [endIds, unchangedIds, sharedIds, Finset.mem_sdiff,
      Finset.mem_filter, Finset.mem_inter, List.mem_toFinset] at ha hb
    tauto
  · rw [Finset.disjoint_left]
    intro a ha hb
    simp only [updatedIds, unchangedIds, sharedIds, Finset.mem_filter,
      Finset.mem_inter, List.mem_toFinset] at ha hb
    tauto
  · ext a
    simp only [startIds, endIds, updatedIds, unchangedIds, sharedIds,
      Finset.mem_union, Finset.mem_sdiff, Finset.mem_filter, Finset.mem_inter,
      List.mem_toFinset]
    tauto
  · intro h
    refine ⟨?_, ?_, ?_⟩
    · rw [exists_start_event]
      simp only [startIds, Finset.mem_sdiff, List.mem_toFinset]
      constructor
      · rintro ⟨r, hm⟩
        rw [mem_diff_start] at hm
        exact ⟨(mem_keys_iff_pair cur h).mpr ⟨r, hm.1⟩, hm.2⟩
      · rintro ⟨hmc, hmp⟩
        obtain ⟨r, hr⟩ := (mem_keys_iff_pair cur h).mp hmc
        exact ⟨r, (mem_diff_start prev cur h r).mpr ⟨hr, hmp⟩⟩
    · rw [exists_end_event]
      simp only [endIds, Finset.mem_sdiff, List.mem_toFinset]
      constructor
      · rintro ⟨r, hm⟩
        rw [mem_diff_end] at hm
        exact ⟨(mem_keys_iff_pair prev h).mpr ⟨r, hm.1⟩, hm.2⟩
      · rintro ⟨hmp, hmc⟩
        obtain ⟨r, hr⟩ := (mem_keys_iff_pair prev h).mp hmp
        exact ⟨r, (mem_diff_end prev cur h r).mpr ⟨hr, hmc⟩⟩
    · rw [exists_update_event]
      simp only [updatedIds, sharedIds, Finset.mem_filter, Finset.mem_inter,
        List.mem_toFinset]
      constructor
      · rintro ⟨p, c, chs, hm⟩
        rw [mem_diff_update] at hm
        obtain ⟨hmc, hlp, hmon, -⟩ := hm
        have hlc : List.lookup h cur = some c :=
          (mem_iff_lookup cur h c hc).mp hmc
        refine ⟨⟨(mem_keys_iff_lookup h prev).mpr ⟨p, hlp⟩,
          (mem_keys_iff_pair cur h).mpr ⟨c, hmc⟩⟩, ?_⟩
        simp only [changedAt, hlp, hlc]
        exact hmon
      · rintro ⟨⟨hkp, hkc⟩, hch⟩
        obtain ⟨p, hlp⟩ := (mem_keys_iff_lookup h prev).mp hkp
        obtain ⟨c, hlc⟩ := (mem_keys_iff_lookup h cur).mp hkc
        have hmon : ¬ monitoredEq p c := by
          simp only [changedAt, hlp, hlc] at hch
          exact hch
        refine ⟨p, c, changedFieldsOf p c, ?_⟩
        exact (mem_diff_update prev cur h p c (changedFieldsOf p c)).mpr
          ⟨(mem_iff_lookup cur h c hc).mpr hlc, hlp, hmon, rfl⟩

/-- Closed instance of C2: the partition property evaluated on a concrete
snapshot pair where one identity starts, one ends and one updates. -/
theorem diff_partition_witness :
    startIds demoPrev demoCur ∪ endIds demoPrev demoCur ∪
        updatedIds demoPrev demoCur ∪ unchangedIds demoPrev demoCur =
      (snapKeys demoPrev).toFinset ∪ (snapKeys demoCur).toFinset ∧
    Disjoint (startIds demoPrev demoCur) (endIds demoPrev demoCur) := by
  have h := diff_partition demoPrev demoCur (by decide) (by decide)
  exact ⟨h.2.1, h.1.1⟩

/-- C5: if both snapshots have the same identity set and every shared
identity has equal monitored fields, the diff is empty; and a shared
identity with all monitored fields equal receives no event whatever its
non-monitored fields do. -/
theorem diff_noop :
    (∀ prev cur : Snapshot, (snapKeys cur).Nodup →
      (snapKeys prev).toFinset = (snapKeys cur).toFinset →
      (∀ h p c, List.lookup h prev = some p → List.lookup h cur = some c →
        monitoredEq p c) →
      diff prev cur = []) ∧
    (∀ prev cur : Snapshot, (snapKeys cur).Nodup →
      ∀ h ∈ sharedIds prev cur, ¬ changedAt prev cur h →
        ∀ ev ∈ diff prev cur, eventIdentity ev ≠ h) := by
  constructor
  · intro prev cur hc hset hmon
    unfold diff
    have h1 : cur.filter (fun pc => decide (pc.1 ∉ snapKeys prev)) = [] := by
      rw [List.filter_eq_nil_iff]
      rintro ⟨k, c⟩ hm
      simp only [decide_eq_true_eq, not_not]
      have : k ∈ (snapKeys cur).toFinset :=
        List.mem_toFinset.mpr ((mem_keys_iff_pair cur k).mpr ⟨c, hm⟩)
      exact List.mem_toFinset.mp (hset ▸ this)
    have h2 : prev.filter (fun pc => decide (pc.1 ∉ snapKeys cur)) = [] := by
      rw [List.filter_eq_nil_iff]
      rintro ⟨k, c⟩ hm
      simp only [decide_eq_true_eq, not_not]
      have : k ∈ (snapKeys prev).toFinset :=
        List.mem_toFinset.mpr ((mem_keys_iff_pair prev k).mpr ⟨c, hm⟩)
      exact List.mem_toFinset.mp (hset ▸ this)
    have h3 : cur.filterMap (fun pc =>
        match List.lookup pc.1 prev with
        | some p =>
          if monitoredEq p pc.2 then none
          else some (ChangeEvent.campaignUpdate pc.1 p pc.2
            (changedFieldsOf p pc.2))
        | none => none) = [] := by
      rw [List.filterMap_eq_nil_iff]
      rintro ⟨k, c⟩ hm
      have hkc : List.lookup k cur = some c := (mem_iff_lookup cur k c hc).mp hm
      have hkcur : k ∈ (snapKeys cur).toFinset :=
        List.mem_toFinset.mpr ((mem_keys_iff_pair cur k).mpr ⟨c, hm⟩)
      have hkprev : k ∈ snapKeys prev :=
        List.mem_toFinset.mp (hset ▸ hkcur)
      obtain ⟨p, hlp⟩ := (mem_keys_iff_lookup k prev).mp hkprev
      rw [hlp]
      dsimp only
      rw [if_pos (hmon k p c hlp hkc)]
    rw [h1, h2, h3]
    simp
  · intro prev cur hc h hsh hnch ev hev heq
    cases ev with
    | campaignStart i r =>
      rw [mem_diff_start] at hev
      simp only [eventIdentity] at heq
      subst heq
      simp only [sharedIds, Finset.mem_inter, List.mem_toFinset] at hsh
      exact hev.2 hsh.1
    | campaignEnd i r =>
      rw [mem_diff_end] at hev
      simp only [eventIdentity] at heq
      subst heq
      simp only [sharedIds, Finset.mem_inter, List.mem_toFinset] at hsh
      exact hev.2 hsh.2
    | campaignUpdate i p c chs =>
      rw [mem_diff_update] at hev
      simp only [eventIdentity] at heq
      subst heq
      obtain ⟨hmc, hlp, hmon, -⟩ := hev
      have hlc : List.lookup i cur = some c := (mem_iff_lookup cur i c hc).mp hmc
      apply hnch
      simp only [changedAt, hlp, hlc]
      exact hmon

/-- Closed instance of C5: the snapshot pair whose only difference is a
display-name change diffs to the empty event list, although the record
values differ. -/
theorem diff_noop_witness :
    diff noopPrev noopCur = [] ∧ noopPrev ≠ noopCur := by
  refine ⟨diff_noop.1 noopPrev noopCur (by decide) (by decide) ?_, by decide⟩
  intro h p c hp hc
  have hmem : h ∈ snapKeys noopPrev :=
    (mem_keys_iff_lookup h noopPrev).mpr ⟨p, hp⟩
  have hh : h = "h1" := by
    simpa [noopPrev, snapKeys] using hmem
  subst hh
  have hp1 : List.lookup "h1" noopPrev = some sampleRecord := by decide
  have hc1 : List.lookup "h1" noopCur =
      some { sampleRecord with provider_name := "Cafe One Renamed" } := by decide
  rw [hp1] at hp
  rw [hc1] at hc
  obtain rfl := Option.some.inj hp.symm
  obtain rfl := Option.some.inj hc.symm
  decide

/-- C8: when either snapshot normalizes to zero valid records the whole
invocation fails with the empty-snapshot error instead of producing a
diff, and every invocation either returns the complete diff of the two
normalized snapshots or a typed error — never partial output. -/
theorem empty_snapshot_spec :
    (∀ prevRows curRows : List RawRow,
      (normalizeSnapshot prevRows = [] ∨ normalizeSnapshot curRows = []) →
      processInvocation prevRows curRows = .error .emptySnapshot) ∧
    (∀ prevRows curRows : List RawRow,
      processInvocation prevRows curRows =
        .ok (diff (toSnapshot (normalizeSnapshot prevRows))
          (toSnapshot (normalizeSnapshot curRows))) ∨
      processInvocation prevRows curRows = .error .emptySnapshot) := by
  constructor
  · intro prevRows curRows hemp
    unfold processInvocation
    rcases hemp with h | h <;> simp [h]
  · intro prevRows curRows
    unfold processInvocation
    by_cases h : (normalizeSnapshot prevRows).isEmpty ||
        (normalizeSnapshot curRows).isEmpty
    · rw [if_pos h]
      exact Or.inr rfl
    · rw [if_neg h]
      exact Or.inl rfl

/-- Closed instance of C8: a previous snapshot whose only row is
malformed makes the invocation fail with the empty-snapshot error. -/
theorem empty_snapshot_witness :
    processInvocation [badRow] [goodRow] = .error .emptySnapshot :=
  empty_snapshot_spec.1 [badRow] [goodRow] (Or.inl (by decide))

end CampaignChangelog
